import Mathlib

/-!
Verification of the Semtech 2.4GHz gateway HAL/MCU driver
(`libloragw`: `loragw_hal.c`, `loragw_mcu.c`).

The C sources are shallowly embedded: machine integers become `Nat`/`Int`
with explicit wrap-around where the C width matters, C `float`/`double`
become `ℚ` (exact arithmetic standing in for the IEEE values), the
file-scope mutable configuration becomes an explicit `HalState` record
threaded through the functions, and serial-transport I/O becomes an
explicit trace of read results / an oracle of acknowledgment outcomes.
C arrays indexed by wire-controlled bytes are modelled as total maps
`Nat → _` so that an out-of-bounds access is observable instead of
undefined.
-/

/-- Number of RX channels supported (`LGW_RX_CHANNEL_NB_MAX` in `loragw_hal.h`). -/
def LGW_RX_CHANNEL_NB_MAX : Nat := 3

/-- Value of the `STAT_CRC_OK` member of `e_crc_status` (`loragw_hal.h`). -/
def STAT_CRC_OK : Nat := 0x10

/-- Value of the `MOD_LORA` member of `e_modulation` (`loragw_hal.h`). -/
def MOD_LORA : Nat := 0

/-- Value of the `CR_LORA_LI_4_7` member of `e_coding_rate` (`loragw_hal.h`). -/
def CR_LORA_LI_4_7 : Nat := 0x07

/-- RX channel configuration (`struct lgw_conf_channel_rx_s`).
Field list follows the assignments in `lgw_channel_rx_setconf`
(`loragw_hal.c`), which also copies a `sync_word` field.
`rssi_offset` is a C `float`, modelled as `ℚ`. -/
structure lgw_conf_channel_rx_s where
  enable : Bool
  freq_hz : Nat
  bandwidth : Nat
  datarate : Nat
  rssi_offset : ℚ
  sync_word : Nat
deriving DecidableEq

/-- TX configuration (`struct lgw_conf_channel_tx_s`): enable flag only. -/
structure lgw_conf_channel_tx_s where
  enable : Bool
deriving DecidableEq

/-- Board configuration (`struct lgw_conf_board_s`): TTY device path. -/
structure lgw_conf_board_s where
  tty_path : String
deriving DecidableEq

/-- The file-scope mutable state of `loragw_hal.c`: `mcu_tty_path`,
`lgw_is_started`, `rx_channel[LGW_RX_CHANNEL_NB_MAX]`, `tx_channel`.
The 3-entry C array `rx_channel` is modelled as a total map on `Nat`
so that the out-of-bounds accesses the C code can perform are
representable (indices `0,1,2` are the real array cells). -/
structure HalState where
  mcu_tty_path : String
  lgw_is_started : Bool
  rx_channel : Nat → lgw_conf_channel_rx_s
  tx_channel : lgw_conf_channel_tx_s

/-- Model of `lgw_board_setconf` (`loragw_hal.c`): NULL check, reject when started,
otherwise `strncpy` the TTY path (truncated to the 64-byte buffer). -/
def lgw_board_setconf (st : HalState) (conf : Option lgw_conf_board_s) :
    Int × HalState :=
  match conf with
  | none => (-1, st)
  | some c =>
    if st.lgw_is_started = true then (-1, st)
    else (0, { st with mcu_tty_path := c.tty_path.take 64 })

/-- Model of `lgw_channel_rx_setconf` (`loragw_hal.c`): NULL check; the
out-of-range channel check only prints an error and does NOT return;
reject when started; otherwise copy the six configuration fields into
`rx_channel[channel]` — including when `channel ≥ LGW_RX_CHANNEL_NB_MAX`,
which in C is an out-of-bounds write (represented here by updating the
map outside `0..2`). -/
def lgw_channel_rx_setconf (st : HalState) (channel : Nat)
    (conf : Option lgw_conf_channel_rx_s) : Int × HalState :=
  match conf with
  | none => (-1, st)
  | some c =>
    -- if (channel >= LGW_RX_CHANNEL_NB_MAX) { printf(...); }  /* no return */
    if st.lgw_is_started = true then (-1, st)
    else (0, { st with rx_channel := Function.update st.rx_channel channel c })

/-- Model of `lgw_channel_tx_setconf` (`loragw_hal.c`): NULL check, reject when
started, otherwise copy the enable flag. -/
def lgw_channel_tx_setconf (st : HalState) (conf : Option lgw_conf_channel_tx_s) :
    Int × HalState :=
  match conf with
  | none => (-1, st)
  | some c =>
    if st.lgw_is_started = true then (-1, st)
    else (0, { st with tx_channel := { enable := c.enable } })

/-- C1: while the concentrator lifecycle state is Started, every
configuration mutator (`lgw_board_setconf`, `lgw_channel_rx_setconf`,
`lgw_channel_tx_setconf`) returns the error code `-1` for every input
and leaves the whole configuration state (board path, RX channel table,
TX configuration) unchanged. -/
theorem started_rejects_all_config_mutators (st : HalState)
    (h : st.lgw_is_started = true)
    (bc : Option lgw_conf_board_s) (ch : Nat)
    (rc : Option lgw_conf_channel_rx_s) (tc : Option lgw_conf_channel_tx_s) :
    lgw_board_setconf st bc = (-1, st) ∧
    lgw_channel_rx_setconf st ch rc = (-1, st) ∧
    lgw_channel_tx_setconf st tc = (-1, st) := by
  refine ⟨?_, ?_, ?_⟩ <;>
    · first
      | (cases bc with
         | none => rfl
         | some c => simp [lgw_board_setconf, h])
      | (cases rc with
         | none => rfl
         | some c => simp [lgw_channel_rx_setconf, h])
      | (cases tc with
         | none => rfl
         | some c => simp [lgw_channel_tx_setconf, h])

/-- A concrete started state used to witness the C1 theorem. -/
def startedStateC1 : HalState :=
  { mcu_tty_path := "/dev/ttyACM0"
    lgw_is_started := true
    rx_channel := fun _ =>
      { enable := false, freq_hz := 0, bandwidth := 0, datarate := 0
        rssi_offset := 0, sync_word := 0 }
    tx_channel := { enable := false } }

/-- Witness for C1: the theorem applied to a concrete started state and
concrete configuration inputs. -/
theorem started_rejects_all_config_mutators_witness :
    startedStateC1.lgw_is_started = true ∧
    (lgw_board_setconf startedStateC1 (some { tty_path := "/dev/x" })
        = (-1, startedStateC1) ∧
     lgw_channel_rx_setconf startedStateC1 0
        (some { enable := true, freq_hz := 2403000000, bandwidth := 12
                datarate := 7, rssi_offset := 1, sync_word := 0x12 })
        = (-1, startedStateC1) ∧
     lgw_channel_tx_setconf startedStateC1 (some { enable := true })
        = (-1, startedStateC1)) :=
  ⟨rfl, started_rejects_all_config_mutators startedStateC1 rfl _ 0 _ _⟩

/-- A concrete stopped state used to exercise the out-of-range bug of C3. -/
def stoppedStateC3 : HalState :=
  { mcu_tty_path := ""
    lgw_is_started := false
    rx_channel := fun _ =>
      { enable := false, freq_hz := 0, bandwidth := 0, datarate := 0
        rssi_offset := 0, sync_word := 0 }
    tx_channel := { enable := false } }

/-- A concrete RX channel configuration used to exercise the C3 bug. -/
def confC3 : lgw_conf_channel_rx_s :=
  { enable := true, freq_hz := 2425000000, bandwidth := 13, datarate := 12
    rssi_offset := -5, sync_word := 0x21 }

/-- C3 is violated by the code: for the out-of-range channel index 3
(with the concentrator stopped and a non-null configuration),
`lgw_channel_rx_setconf` returns success `0` instead of an error, and it
does mutate the table — at index 3, outside the 3-entry array. The C
source prints "ERROR: invalid channel number" but is missing the
`return -1`, contradicting its own error message and the header comment
restricting the index to `[0, LGW_RX_CHANNEL_NB_MAX - 1]`. -/
theorem rx_setconf_out_of_range_missing_return :
    ¬ (3 < LGW_RX_CHANNEL_NB_MAX) ∧
    (lgw_channel_rx_setconf stoppedStateC3 3 (some confC3)).1 = 0 ∧
    (lgw_channel_rx_setconf stoppedStateC3 3 (some confC3)).2.rx_channel 3
      = confC3 := by
  refine ⟨by decide, rfl, ?_⟩
  simp [lgw_channel_rx_setconf, stoppedStateC3]

/-! ## Framing engine: `read_ack` (`loragw_mcu.c`) -/

/-- Header length of a protocol frame (`HEADER_CMD_SIZE`). -/
def HEADER_CMD_SIZE : Nat := 4

/-- Capacity of the fixed receive buffer `buf_ack` (`READ_SIZE_MAX`). -/
def READ_SIZE_MAX : Nat := 500

/-- Outcome of one `read()` call on the serial transport:
interrupted (`errno == EINTR`), failed (`read` returned `-1`), or a
chunk of bytes (possibly empty, as with a short-timeout read of 0). -/
inductive ReadRes where
  | intr : ReadRes
  | fault : ReadRes
  | chunk : List Nat → ReadRes
deriving DecidableEq

/-- Error outcomes of `read_ack` (all returned as `-1` in C; the
distinct print paths are kept apart here). -/
inductive AckErr where
  | interrupted : AckErr
  | transport : AckErr
  | tooLarge : AckErr
deriving DecidableEq

/-- Write `data` into the byte buffer `buf` starting at offset `off`
(the effect of `read(fd, &buf[off], …)` on the C buffer). -/
def writeBuf (buf : Nat → Nat) (off : Nat) (data : List Nat) : Nat → Nat :=
  fun i => if i < off then buf i else data.getD (i - off) (buf i)

/-- The payload do-while loop of `read_ack` (`loragw_mcu.c` lines
216-230): keep calling `read` and accumulating `nb_read` until
`nb_read - HEADER_CMD_SIZE` reaches the declared `size`. `EINTR` and
read failures return `-1` immediately; a 0-byte read just loops. The
trace is the sequence of transport read outcomes; `none` means the
trace was exhausted with the loop still waiting (the C code would stay
blocked in `read`). The result carries the C return value, the final
buffer, and the unconsumed transport trace. -/
def payload_loop (size : Nat) :
    List ReadRes → Int → (Nat → Nat) →
    Option ((Except AckErr Int) × (Nat → Nat) × List ReadRes)
  | [], _, _ => none
  | .intr :: rest, _, buf => some (.error .interrupted, buf, rest)
  | .fault :: rest, _, buf => some (.error .transport, buf, rest)
  | .chunk d :: rest, nbRead, buf =>
    let buf' := writeBuf buf nbRead.toNat d
    let nb' := nbRead + d.length
    if nb' - (HEADER_CMD_SIZE : Int) < (size : Int) then
      payload_loop size rest nb' buf'
    else
      some (.ok nb', buf', rest)

/-- Model of `read_ack` (`loragw_mcu.c`): read a 4-byte header (one `read` call;
`EINTR` or failure returns `-1`), extract the declared payload size
from bytes 1-2 (big-endian, as in `cmd_get_size`), fail if
`HEADER_CMD_SIZE + size` overflows `buf_size`, then run the payload
loop if `size > 0`. -/
def read_ack (trace : List ReadRes) (buf : Nat → Nat) (bufSize : Nat) :
    Option ((Except AckErr Int) × (Nat → Nat) × List ReadRes) :=
  match trace with
  | [] => none
  | .intr :: rest => some (.error .interrupted, buf, rest)
  | .fault :: rest => some (.error .transport, buf, rest)
  | .chunk d :: rest =>
    let buf' := writeBuf buf 0 d
    let nbRead : Int := d.length
    let size := buf' 1 * 256 + buf' 2
    if HEADER_CMD_SIZE + size > bufSize then
      some (.error .tooLarge, buf', rest)
    else if size > 0 then
      payload_loop size rest nbRead buf'
    else
      some (.ok nbRead, buf', rest)

/-- Writing an empty chunk leaves the buffer unchanged. -/
theorem writeBuf_nil (buf : Nat → Nat) (off : Nat) : writeBuf buf off [] = buf := by
  funext i
  unfold writeBuf
  split <;> rfl

/-- C2 as stated is false: an interrupted read (`EINTR`) is not retried
by `read_ack`; it makes the call fail immediately, even when a complete
well-formed frame is available from the transport right after the
interruption. Concretely, on the trace `[interrupted, 4-byte header of
an empty frame]` the call returns the error `-1` path instead of
retrying and returning the frame. -/
theorem read_ack_eintr_not_retried :
    read_ack [.intr, .chunk [0x42, 0, 0, 0x06]] (fun _ => 0) READ_SIZE_MAX
      = some (.error .interrupted, (fun _ => 0), [.chunk [0x42, 0, 0, 0x06]]) := rfl

/-- C2 amended: in `read_ack`, a read of 0 bytes during the payload
phase is transparently retried (the loop issues another read, until the
full declared length has been obtained), and a successful return always
means the full declared frame length was reached; but an interrupted
read (`EINTR`) is never retried — whether it hits the header read or
the payload loop, it makes `read_ack` fail immediately with `-1`. -/
theorem read_ack_retry_discipline (size : Nat) (rest trace : List ReadRes)
    (nb r : Int) (buf buf' : Nat → Nat) (rest' : List ReadRes)
    (hwait : nb - (HEADER_CMD_SIZE : Int) < (size : Int))
    (hok : payload_loop size trace nb buf = some (.ok r, buf', rest')) :
    payload_loop size (.chunk [] :: rest) nb buf = payload_loop size rest nb buf ∧
    r - (HEADER_CMD_SIZE : Int) ≥ (size : Int) ∧
    read_ack (.intr :: rest) buf READ_SIZE_MAX
      = some (.error .interrupted, buf, rest) ∧
    payload_loop size (.intr :: rest) nb buf
      = some (.error .interrupted, buf, rest) := by
  refine ⟨?_, ?_, rfl, rfl⟩
  · show (if (nb + ([] : List Nat).length : Int) - (HEADER_CMD_SIZE : Int) < (size : Int) then
        payload_loop size rest (nb + ([] : List Nat).length) (writeBuf buf nb.toNat [])
      else some (.ok (nb + ([] : List Nat).length), writeBuf buf nb.toNat [], rest))
      = payload_loop size rest nb buf
    simp [writeBuf_nil, hwait]
  · clear hwait
    induction trace generalizing nb buf with
    | nil => simp [payload_loop] at hok
    | cons hd tl ih =>
      cases hd with
      | intr => simp [payload_loop] at hok
      | fault => simp [payload_loop] at hok
      | chunk d =>
        rw [payload_loop] at hok
        by_cases hc : (nb + d.length : Int) - (HEADER_CMD_SIZE : Int) < (size : Int)
        · rw [if_pos hc] at hok
          exact ih _ _ hok
        · rw [if_neg hc] at hok
          simp only [Option.some.injEq, Prod.mk.injEq, Except.ok.injEq] at hok
          obtain ⟨h1, -⟩ := hok
          omega

/-- Witness for the amended C2 theorem at a concrete trace: a fully
read header (`nb_read = 4`), declared payload size 2, one 2-byte
payload read. -/
theorem read_ack_retry_discipline_witness :
    ((4 : Int) - (HEADER_CMD_SIZE : Int) < ((2 : Nat) : Int) ∧
     payload_loop 2 [.chunk [7, 7]] 4 (fun _ => 0)
       = some (.ok 6, writeBuf (fun _ => 0) 4 [7, 7], [])) ∧
    (payload_loop 2 (.chunk [] :: [.intr]) 4 (fun _ => 0)
       = payload_loop 2 [.intr] 4 (fun _ => 0) ∧
     (6 : Int) - (HEADER_CMD_SIZE : Int) ≥ ((2 : Nat) : Int) ∧
     read_ack (.intr :: [.intr]) (fun _ => 0) READ_SIZE_MAX
       = some (.error .interrupted, (fun _ => 0), [.intr]) ∧
     payload_loop 2 (.intr :: [.intr]) 4 (fun _ => 0)
       = some (.error .interrupted, (fun _ => 0), [.intr])) :=
  ⟨⟨by decide, rfl⟩,
   read_ack_retry_discipline 2 [.intr] [.chunk [7, 7]] 4 6 (fun _ => 0)
     (writeBuf (fun _ => 0) 4 [7, 7]) [] (by decide) rfl⟩

/-- C8: a reply frame whose header-declared payload size plus the
4-byte header exceeds the 500-byte receive buffer makes `read_ack` fail
immediately, consuming no further transport reads (the payload is never
read: the unconsumed trace is exactly what followed the header). -/
theorem read_ack_frame_too_large (hdr : List Nat) (rest : List ReadRes)
    (buf : Nat → Nat) (hlen : hdr.length = 4)
    (hsz : HEADER_CMD_SIZE + (hdr.getD 1 0 * 256 + hdr.getD 2 0) > READ_SIZE_MAX) :
    read_ack (.chunk hdr :: rest) buf READ_SIZE_MAX
      = some (.error .tooLarge, writeBuf buf 0 hdr, rest) := by
  obtain ⟨a, b, c, d, rfl⟩ : ∃ a b c d, hdr = [a, b, c, d] := by
    match hdr, hlen with
    | [a, b, c, d], _ => exact ⟨a, b, c, d, rfl⟩
  simp only [read_ack]
  rw [if_pos]
  have h1 : writeBuf buf 0 [a, b, c, d] 1 = b := rfl
  have h2 : writeBuf buf 0 [a, b, c, d] 2 = c := rfl
  rw [h1, h2]
  simpa using hsz

/-- Witness for C8: a header declaring a 512-byte payload (512 + 4 >
500) followed by available payload bytes that are never read. -/
theorem read_ack_frame_too_large_witness :
    ([0x10, 0x02, 0x00, 0x06] : List Nat).length = 4 ∧
    HEADER_CMD_SIZE + (([0x10, 0x02, 0x00, 0x06] : List Nat).getD 1 0 * 256 +
      ([0x10, 0x02, 0x00, 0x06] : List Nat).getD 2 0) > READ_SIZE_MAX ∧
    read_ack (.chunk [0x10, 0x02, 0x00, 0x06] :: [.chunk [1, 2, 3]]) (fun _ => 0)
        READ_SIZE_MAX
      = some (.error .tooLarge, writeBuf (fun _ => 0) 0 [0x10, 0x02, 0x00, 0x06],
              [.chunk [1, 2, 3]]) :=
  ⟨rfl, by decide,
   read_ack_frame_too_large [0x10, 0x02, 0x00, 0x06] [.chunk [1, 2, 3]]
     (fun _ => 0) rfl (by decide)⟩

/-! ## `lgw_start` RX configuration phase (`loragw_hal.c`) -/

/-- Information returned by the MCU ping (`s_ping_info`). -/
structure s_ping_info where
  unique_id_high : Nat
  unique_id_mid : Nat
  unique_id_low : Nat
  version : String
  nb_radio_tx : Nat
  nb_radio_rx : Nat

/-- Expected MCU firmware version (`mcu_version_string`, `loragw_hal.c`). -/
def mcu_version_string : String := "01.00.01"

/-- Outcomes of the transport operations `lgw_start` performs, in
program order: `mcu_open`, `mcu_ping`, the two `mcu_reset` calls,
`mcu_get_status`, and one `mcu_config_rx` outcome per channel index. -/
structure StartEnv where
  open_ok : Bool
  ping : Option s_ping_info
  reset_rx_ok : Bool
  reset_tx_ok : Bool
  status_ok : Bool
  config_rx_ok : Nat → Bool

/-- The RX-configuration loop of `lgw_start` (`loragw_hal.c` lines
193-214): for `i = 0 .. nb_radio_rx - 1` (here: current index `i` and
remaining count), configure `idx = (i + 1) % 3`; skip disabled
channels; fail if an enabled channel is reached while channel 1 is
disabled; issue `mcu_config_rx` for the channel and fail if it fails.
Returns the success flag and the list of channel indices for which a
config-RX command was issued, in issue order. -/
def configure_rx_loop (rx : Nat → lgw_conf_channel_rx_s) (cfgOk : Nat → Bool) :
    Nat → Nat → Bool × List Nat
  | _, 0 => (true, [])
  | i, n + 1 =>
    let idx := (i + 1) % 3
    if (rx idx).enable = true then
      if (rx 1).enable = false then (false, [])
      else if cfgOk idx = true then
        let r := configure_rx_loop rx cfgOk (i + 1) n
        (r.1, idx :: r.2)
      else (false, [idx])
    else configure_rx_loop rx cfgOk (i + 1) n

/-- Model of `lgw_start` (`loragw_hal.c`): reject when already started, open the
transport, ping, check the firmware version (ignoring the first
character of the received version), reset RX radios then the TX radio,
fetch status, run the RX-configuration loop over the discovered RX
radio count, and only then set `lgw_is_started`. The result carries the
C return value, the final HAL state, and the list of channels for
which a config-RX command was issued. -/
def lgw_start (st : HalState) (env : StartEnv) : Int × HalState × List Nat :=
  if st.lgw_is_started = true then (-1, st, [])
  else if env.open_ok = false then (-1, st, [])
  else
    match env.ping with
    | none => (-1, st, [])
    | some info =>
      if info.version.drop 1 ≠ mcu_version_string then (-1, st, [])
      else if env.reset_rx_ok = false then (-1, st, [])
      else if env.reset_tx_ok = false then (-1, st, [])
      else if env.status_ok = false then (-1, st, [])
      else
        let r := configure_rx_loop st.rx_channel env.config_rx_ok 0 info.nb_radio_rx
        if r.1 = true then (0, { st with lgw_is_started := true }, r.2)
        else (-1, st, r.2)

/-- On success with 3 discovered radios, the configuration loop issues
exactly the enabled channels in the order 1, 2, 0. -/
theorem configure_rx_loop_success_order (rx : Nat → lgw_conf_channel_rx_s)
    (cfg : Nat → Bool) (h : (configure_rx_loop rx cfg 0 3).1 = true) :
    (configure_rx_loop rx cfg 0 3).2
      = [1, 2, 0].filter (fun i => (rx i).enable) := by
  simp only [configure_rx_loop] at h ⊢
  norm_num at h ⊢
  split_ifs at h ⊢ <;> simp_all

/-- With 3 discovered radios, channel 1 disabled and some other channel
enabled, the configuration loop fails. -/
theorem configure_rx_loop_needs_channel_one (rx : Nat → lgw_conf_channel_rx_s)
    (cfg : Nat → Bool) (h1 : (rx 1).enable = false)
    (h02 : (rx 0).enable = true ∨ (rx 2).enable = true) :
    (configure_rx_loop rx cfg 0 3).1 = false := by
  simp only [configure_rx_loop]
  norm_num
  rcases h02 with h0 | h2 <;> split_ifs <;> simp_all

/-- C4: during `lgw_start` with 3 discovered RX radios, (a) on success
the config-RX commands are issued exactly for the enabled channels in
the order 1, 2, 0 — channel index 1 first, not index order; and (b) if
channel 1 is disabled while channel 0 or channel 2 is enabled,
`lgw_start` returns `-1` and the HAL state is unchanged (in particular
it does not transition to Started). -/
theorem lgw_start_channel_one_first (st : HalState) (env : StartEnv)
    (info : s_ping_info) (hping : env.ping = some info)
    (hnb : info.nb_radio_rx = 3) :
    ((lgw_start st env).1 = 0 →
      (lgw_start st env).2.2
        = [1, 2, 0].filter (fun i => (st.rx_channel i).enable)) ∧
    ((st.rx_channel 1).enable = false →
      ((st.rx_channel 0).enable = true ∨ (st.rx_channel 2).enable = true) →
      (lgw_start st env).1 = -1 ∧ (lgw_start st env).2.1 = st) := by
  have e : lgw_start st env =
      (if st.lgw_is_started = true then (-1, st, [])
       else if env.open_ok = false then (-1, st, [])
       else if info.version.drop 1 ≠ mcu_version_string then (-1, st, [])
       else if env.reset_rx_ok = false then (-1, st, [])
       else if env.reset_tx_ok = false then (-1, st, [])
       else if env.status_ok = false then (-1, st, [])
       else if (configure_rx_loop st.rx_channel env.config_rx_ok 0
           info.nb_radio_rx).1 = true then
         (0, { st with lgw_is_started := true },
          (configure_rx_loop st.rx_channel env.config_rx_ok 0 info.nb_radio_rx).2)
       else
         (-1, st,
          (configure_rx_loop st.rx_channel env.config_rx_ok 0 info.nb_radio_rx).2)) := by
    unfold lgw_start
    rw [hping]
  rw [hnb] at e
  constructor
  · intro hok
    rw [e] at hok ⊢
    split_ifs at hok ⊢ <;>
      first
        | (simp at hok; done)
        | exact configure_rx_loop_success_order _ _ (by assumption)
  · intro h1 h02
    have hfail := configure_rx_loop_needs_channel_one st.rx_channel
      env.config_rx_ok h1 h02
    rw [e]
    split_ifs with w1 w2 w3 w4 w5 w6 w7 <;> simp_all

/-- A HAL state for the C4 witness: channels 0 and 1 enabled, channel 2
disabled, concentrator stopped. -/
def stateC4 : HalState :=
  { mcu_tty_path := "/dev/ttyACM0"
    lgw_is_started := false
    rx_channel := fun i =>
      { enable := i = 0 ∨ i = 1, freq_hz := 2422000000 + i, bandwidth := 12
        datarate := 7, rssi_offset := 0, sync_word := 0x12 }
    tx_channel := { enable := true } }

/-- A transport environment for the C4 witness: everything succeeds,
the MCU reports version "R01.00.01" and 3 RX radios. -/
def envC4 : StartEnv :=
  { open_ok := true
    ping := some { unique_id_high := 1, unique_id_mid := 2, unique_id_low := 3
                   version := "R01.00.01", nb_radio_tx := 1, nb_radio_rx := 3 }
    reset_rx_ok := true
    reset_tx_ok := true
    status_ok := true
    config_rx_ok := fun _ => true }

/-- Witness for C4 at a concrete state and environment. -/
theorem lgw_start_channel_one_first_witness :
    envC4.ping = some { unique_id_high := 1, unique_id_mid := 2, unique_id_low := 3
                        version := "R01.00.01", nb_radio_tx := 1, nb_radio_rx := 3 } ∧
    (3 : Nat) = 3 ∧
    (((lgw_start stateC4 envC4).1 = 0 →
      (lgw_start stateC4 envC4).2.2
        = [1, 2, 0].filter (fun i => (stateC4.rx_channel i).enable)) ∧
     ((stateC4.rx_channel 1).enable = false →
      ((stateC4.rx_channel 0).enable = true ∨ (stateC4.rx_channel 2).enable = true) →
      (lgw_start stateC4 envC4).1 = -1 ∧ (lgw_start stateC4 envC4).2.1 = stateC4)) :=
  ⟨rfl, rfl, lgw_start_channel_one_first stateC4 envC4 _ rfl rfl⟩

/-! ## RX path: `decode_evt_msg_received` (`loragw_mcu.c`) and the
metadata enrichment loop of `lgw_receive` (`loragw_hal.c`) -/

/-- Modelled from the spec: numeric tag of the message-received event
(`ORDER_ID__EVT_MSG_RECEIVE`, declared in the missing `loragw_mcu.h`).
The claims settled here do not depend on its numeric value. -/
def ORDER_ID__EVT_MSG_RECEIVE : Nat := 0x33

/-- Modelled from the spec (§6, missing `loragw_mcu.h`): payload byte
offsets of the message-received event — radio index, 4-byte timestamp,
4-byte signed frequency error, signed SNR byte, signed RSSI byte,
payload length byte, then the payload. -/
def EVT_MSG_RECEIVE__RADIO_IDX : Nat := 0

/-- Modelled from the spec: offset of the event timestamp field. -/
def EVT_MSG_RECEIVE__TIMESTAMP_31_24 : Nat := 1

/-- Modelled from the spec: offset of the frequency-error field. -/
def EVT_MSG_RECEIVE__ERROR_FREQ_31_24 : Nat := 5

/-- Modelled from the spec: offset of the SNR byte. -/
def EVT_MSG_RECEIVE__SNR : Nat := 9

/-- Modelled from the spec: offset of the RSSI byte. -/
def EVT_MSG_RECEIVE__RSSI : Nat := 10

/-- Modelled from the spec: offset of the payload-length byte. -/
def EVT_MSG_RECEIVE__PAYLOAD_LEN : Nat := 11

/-- Modelled from the spec: offset of the packet payload. -/
def EVT_MSG_RECEIVE__PAYLOAD : Nat := 12

/-- Model of `bytes_be_to_uint32_le`: four big-endian wire bytes at offset `k`
of `buf` to a host 32-bit value. -/
def bytes_be_to_uint32_le (buf : List Nat) (k : Nat) : Nat :=
  buf.getD k 0 * 2 ^ 24 + buf.getD (k + 1) 0 * 2 ^ 16 +
    buf.getD (k + 2) 0 * 2 ^ 8 + buf.getD (k + 3) 0

/-- Interpretation of one byte as a signed `int8_t`. -/
def int8val (b : Nat) : Int :=
  if b < 128 then (b : Int) else (b : Int) - 256

/-- Interpretation of a 32-bit value as a signed `int32_t`
(`bytes_be_to_int32_le`). -/
def int32val (w : Nat) : Int :=
  if w < 2 ^ 31 then (w : Int) else (w : Int) - 2 ^ 32

/-- A received packet (`struct lgw_pkt_rx_s`, `loragw_hal.h`). The C
`float` fields `rssi` and `snr` are modelled as `ℚ`. -/
structure lgw_pkt_rx_s where
  freq_hz : Nat
  channel : Nat
  status : Nat
  count_us : Nat
  foff_hz : Int
  modulation : Nat
  bandwidth : Nat
  datarate : Nat
  coderate : Nat
  rssi : ℚ
  snr : ℚ
  size : Nat
  payload : List Nat
deriving DecidableEq

/-- Model of `decode_evt_msg_received` (`loragw_mcu.c`): check the event tag,
`memset` the packet to zero, then copy the fields from the wire —
including the radio-index byte into `pkt->channel`, with no range
check. `buf` is the full ack buffer (4-byte header then payload). -/
def decode_evt_msg_received (buf : List Nat) : Option lgw_pkt_rx_s :=
  if buf.getD 3 0 ≠ ORDER_ID__EVT_MSG_RECEIVE then none
  else some
    { freq_hz := 0
      channel := buf.getD (HEADER_CMD_SIZE + EVT_MSG_RECEIVE__RADIO_IDX) 0
      status := 0
      count_us := bytes_be_to_uint32_le buf
        (HEADER_CMD_SIZE + EVT_MSG_RECEIVE__TIMESTAMP_31_24)
      foff_hz := int32val (bytes_be_to_uint32_le buf
        (HEADER_CMD_SIZE + EVT_MSG_RECEIVE__ERROR_FREQ_31_24))
      modulation := 0
      bandwidth := 0
      datarate := 0
      coderate := 0
      snr := (int8val (buf.getD (HEADER_CMD_SIZE + EVT_MSG_RECEIVE__SNR) 0) : ℚ)
      rssi := (int8val (buf.getD (HEADER_CMD_SIZE + EVT_MSG_RECEIVE__RSSI) 0) : ℚ)
      size := buf.getD (HEADER_CMD_SIZE + EVT_MSG_RECEIVE__PAYLOAD_LEN) 0
      payload := (buf.drop (HEADER_CMD_SIZE + EVT_MSG_RECEIVE__PAYLOAD)).take
        (buf.getD (HEADER_CMD_SIZE + EVT_MSG_RECEIVE__PAYLOAD_LEN) 0) }

/-- The per-packet metadata-enrichment step of `lgw_receive`
(`loragw_hal.c` lines 276-289): overwrite frequency, status,
modulation, bandwidth, datarate and coderate from the configuration of
`rx_channel[pkt->channel]`, and add that channel's RSSI offset to the
raw RSSI. The table is indexed directly with `pkt->channel`. -/
def enrich_pkt (rx : Nat → lgw_conf_channel_rx_s) (p : lgw_pkt_rx_s) :
    lgw_pkt_rx_s :=
  { p with
    freq_hz := (rx p.channel).freq_hz
    status := STAT_CRC_OK
    modulation := MOD_LORA
    bandwidth := (rx p.channel).bandwidth
    datarate := (rx p.channel).datarate
    coderate := CR_LORA_LI_4_7
    rssi := p.rssi + (rx p.channel).rssi_offset }

/-- Model of `lgw_receive` (`loragw_hal.c`): NULL check (packets given as a
list), reject when not started, fetch packets via `mcu_receive`
(modelled by its outcome: `none` for a transport-level failure, `some`
for the fetched packets), then enrich each fetched packet. Returns the
number of packets and the enriched packets. -/
def lgw_receive (st : HalState) (mcuOut : Option (List lgw_pkt_rx_s)) :
    Except Int (List lgw_pkt_rx_s) :=
  if st.lgw_is_started = false then .error (-1)
  else
    match mcuOut with
    | none => .error (-1)
    | some pkts => .ok (pkts.map (enrich_pkt st.rx_channel))

/-- C5: after a successful start, every packet returned by
`lgw_receive` carries exactly the stored frequency, bandwidth and
spreading factor of the channel that received it, and its RSSI is the
raw wire RSSI plus that channel's configured RSSI offset. -/
theorem lgw_receive_enriches_from_channel_config (st : HalState)
    (h : st.lgw_is_started = true) (pkts : List lgw_pkt_rx_s) :
    lgw_receive st (some pkts) = .ok (pkts.map (enrich_pkt st.rx_channel)) ∧
    ∀ q : lgw_pkt_rx_s,
      (enrich_pkt st.rx_channel q).freq_hz = (st.rx_channel q.channel).freq_hz ∧
      (enrich_pkt st.rx_channel q).bandwidth = (st.rx_channel q.channel).bandwidth ∧
      (enrich_pkt st.rx_channel q).datarate = (st.rx_channel q.channel).datarate ∧
      (enrich_pkt st.rx_channel q).rssi
        = q.rssi + (st.rx_channel q.channel).rssi_offset := by
  refine ⟨?_, fun q => ⟨rfl, rfl, rfl, rfl⟩⟩
  simp [lgw_receive, h]

/-- A concrete packet as decoded from the wire, for the C5 witness. -/
def pktC5 : lgw_pkt_rx_s :=
  { freq_hz := 0, channel := 2, status := 0, count_us := 123456
    foff_hz := -42, modulation := 0, bandwidth := 0, datarate := 0
    coderate := 0, rssi := -90, snr := 7, size := 1, payload := [0xA5] }

/-- A started HAL state for the C5 witness. -/
def startedStateC5 : HalState :=
  { mcu_tty_path := "/dev/ttyACM0"
    lgw_is_started := true
    rx_channel := fun i =>
      { enable := true, freq_hz := 2422000000 + i, bandwidth := 12
        datarate := 7 + i, rssi_offset := -(3 : ℚ) / 2, sync_word := 0x12 }
    tx_channel := { enable := true } }

/-- Witness for C5 at a concrete started state and packet list. -/
theorem lgw_receive_enriches_from_channel_config_witness :
    startedStateC5.lgw_is_started = true ∧
    (lgw_receive startedStateC5 (some [pktC5])
       = .ok ([pktC5].map (enrich_pkt startedStateC5.rx_channel)) ∧
     ∀ q : lgw_pkt_rx_s,
       (enrich_pkt startedStateC5.rx_channel q).freq_hz
         = (startedStateC5.rx_channel q.channel).freq_hz ∧
       (enrich_pkt startedStateC5.rx_channel q).bandwidth
         = (startedStateC5.rx_channel q.channel).bandwidth ∧
       (enrich_pkt startedStateC5.rx_channel q).datarate
         = (startedStateC5.rx_channel q.channel).datarate ∧
       (enrich_pkt startedStateC5.rx_channel q).rssi
         = q.rssi + (startedStateC5.rx_channel q.channel).rssi_offset) :=
  ⟨rfl, lgw_receive_enriches_from_channel_config startedStateC5 rfl [pktC5]⟩

/-- A message-received event frame whose radio-index byte is 3: header
(id, size 12, event tag) then radio index 3, timestamp, frequency
error, SNR, RSSI, payload length 0. -/
def evtBufC9 : List Nat :=
  [0x42, 0, 12, ORDER_ID__EVT_MSG_RECEIVE,
   3, 0, 0, 0, 1, 0, 0, 0, 2, 5, 200, 0]

/-- C9 is violated by the code: `decode_evt_msg_received` accepts a
radio-index byte of 3 without any validation, so the enrichment step of
`lgw_receive` indexes the 3-entry channel table at index 3 — out of
bounds. With a table whose (out-of-range) entry 3 carries a sentinel
frequency, the enriched packet receives exactly that sentinel. -/
theorem decode_evt_radio_index_unchecked :
    (decode_evt_msg_received evtBufC9).map (fun p => p.channel) = some 3 ∧
    ¬ (3 < LGW_RX_CHANNEL_NB_MAX) ∧
    ((decode_evt_msg_received evtBufC9).map (fun p =>
        (enrich_pkt (fun i =>
          { enable := true, freq_hz := if i = 3 then 999 else 0, bandwidth := 0
            datarate := 0, rssi_offset := 0, sync_word := 0 }) p).freq_hz))
      = some 999 := by
  refine ⟨rfl, by decide, rfl⟩

/-- C9 amended: `decode_evt_msg_received` copies the radio-index byte
of the event into `pkt->channel` unvalidated, and the enrichment step
of `lgw_receive` reads the channel table at exactly that byte; the
access stays inside the 3-entry table if and only if the wire byte is
below `LGW_RX_CHANNEL_NB_MAX`. -/
theorem decode_evt_radio_index_passthrough (buf : List Nat)
    (p : lgw_pkt_rx_s) (rx : Nat → lgw_conf_channel_rx_s)
    (hdec : decode_evt_msg_received buf = some p) :
    p.channel = buf.getD (HEADER_CMD_SIZE + EVT_MSG_RECEIVE__RADIO_IDX) 0 ∧
    (enrich_pkt rx p).freq_hz
      = (rx (buf.getD (HEADER_CMD_SIZE + EVT_MSG_RECEIVE__RADIO_IDX) 0)).freq_hz ∧
    (p.channel < LGW_RX_CHANNEL_NB_MAX ↔
      buf.getD (HEADER_CMD_SIZE + EVT_MSG_RECEIVE__RADIO_IDX) 0
        < LGW_RX_CHANNEL_NB_MAX) := by
  unfold decode_evt_msg_received at hdec
  split_ifs at hdec
  simp only [Option.some.injEq] at hdec
  subst hdec
  exact ⟨rfl, rfl, Iff.rfl⟩

/-- Witness for the amended C9 theorem at the concrete event frame. -/
theorem decode_evt_radio_index_passthrough_witness :
    ∃ p, decode_evt_msg_received evtBufC9 = some p ∧
      (p.channel = evtBufC9.getD (HEADER_CMD_SIZE + EVT_MSG_RECEIVE__RADIO_IDX) 0 ∧
       (enrich_pkt (fun _ =>
          { enable := false, freq_hz := 0, bandwidth := 0, datarate := 0
            rssi_offset := 0, sync_word := 0 }) p).freq_hz
         = ((fun _ : Nat =>
            ({ enable := false, freq_hz := 0, bandwidth := 0, datarate := 0
               rssi_offset := 0, sync_word := 0 } : lgw_conf_channel_rx_s))
            (evtBufC9.getD (HEADER_CMD_SIZE + EVT_MSG_RECEIVE__RADIO_IDX) 0)).freq_hz ∧
       (p.channel < LGW_RX_CHANNEL_NB_MAX ↔
         evtBufC9.getD (HEADER_CMD_SIZE + EVT_MSG_RECEIVE__RADIO_IDX) 0
           < LGW_RX_CHANNEL_NB_MAX)) := by
  refine ⟨_, rfl, decode_evt_radio_index_passthrough evtBufC9 _ _ rfl⟩

/-! ## `lgw_get_eui` (`loragw_hal.c`) -/

/-- Assembling eight bytes into a 64-bit value by shift-and-or, as the
final block of `lgw_get_eui` does, equals the positional sum. -/
theorem byte_assemble (b7 b6 b5 b4 b3 b2 b1 b0 : Nat)
    (h7 : b7 < 256) (h6 : b6 < 256) (h5 : b5 < 256) (h4 : b4 < 256)
    (h3 : b3 < 256) (h2 : b2 < 256) (h1 : b1 < 256) (h0 : b0 < 256) :
    (((((((b7 <<< 56 ||| b6 <<< 48) ||| b5 <<< 40) ||| b4 <<< 32) |||
        b3 <<< 24) ||| b2 <<< 16) ||| b1 <<< 8) ||| b0)
      = b7 * 2 ^ 56 + b6 * 2 ^ 48 + b5 * 2 ^ 40 + b4 * 2 ^ 32 +
        b3 * 2 ^ 24 + b2 * 2 ^ 16 + b1 * 2 ^ 8 + b0 := by
  simp only [Nat.shiftLeft_eq, Nat.or_assoc]
  have e10 : b1 * 2 ^ 8 ||| b0 = b1 * 2 ^ 8 + b0 := by
    rw [mul_comm]
    exact (Nat.mul_add_lt_is_or (by omega) b1).symm
  rw [e10]
  have e2 : b2 * 2 ^ 16 ||| (b1 * 2 ^ 8 + b0) = b2 * 2 ^ 16 + (b1 * 2 ^ 8 + b0) := by
    rw [mul_comm]
    exact (Nat.mul_add_lt_is_or (by omega) b2).symm
  rw [e2]
  have e3 : b3 * 2 ^ 24 ||| (b2 * 2 ^ 16 + (b1 * 2 ^ 8 + b0))
      = b3 * 2 ^ 24 + (b2 * 2 ^ 16 + (b1 * 2 ^ 8 + b0)) := by
    rw [mul_comm]
    exact (Nat.mul_add_lt_is_or (by omega) b3).symm
  rw [e3]
  have e4 : b4 * 2 ^ 32 ||| (b3 * 2 ^ 24 + (b2 * 2 ^ 16 + (b1 * 2 ^ 8 + b0)))
      = b4 * 2 ^ 32 + (b3 * 2 ^ 24 + (b2 * 2 ^ 16 + (b1 * 2 ^ 8 + b0))) := by
    rw [mul_comm]
    exact (Nat.mul_add_lt_is_or (by omega) b4).symm
  rw [e4]
  have e5 : b5 * 2 ^ 40 |||
        (b4 * 2 ^ 32 + (b3 * 2 ^ 24 + (b2 * 2 ^ 16 + (b1 * 2 ^ 8 + b0))))
      = b5 * 2 ^ 40 +
        (b4 * 2 ^ 32 + (b3 * 2 ^ 24 + (b2 * 2 ^ 16 + (b1 * 2 ^ 8 + b0)))) := by
    rw [mul_comm]
    exact (Nat.mul_add_lt_is_or (by omega) b5).symm
  rw [e5]
  have e6 : b6 * 2 ^ 48 ||| (b5 * 2 ^ 40 +
        (b4 * 2 ^ 32 + (b3 * 2 ^ 24 + (b2 * 2 ^ 16 + (b1 * 2 ^ 8 + b0)))))
      = b6 * 2 ^ 48 + (b5 * 2 ^ 40 +
        (b4 * 2 ^ 32 + (b3 * 2 ^ 24 + (b2 * 2 ^ 16 + (b1 * 2 ^ 8 + b0))))) := by
    rw [mul_comm]
    exact (Nat.mul_add_lt_is_or (by omega) b6).symm
  rw [e6]
  have e7 : b7 * 2 ^ 56 ||| (b6 * 2 ^ 48 + (b5 * 2 ^ 40 +
        (b4 * 2 ^ 32 + (b3 * 2 ^ 24 + (b2 * 2 ^ 16 + (b1 * 2 ^ 8 + b0))))))
      = b7 * 2 ^ 56 + (b6 * 2 ^ 48 + (b5 * 2 ^ 40 +
        (b4 * 2 ^ 32 + (b3 * 2 ^ 24 + (b2 * 2 ^ 16 + (b1 * 2 ^ 8 + b0)))))) := by
    rw [mul_comm]
    exact (Nat.mul_add_lt_is_or (by omega) b7).symm
  rw [e7]
  ring

/-- The EUI derivation of `lgw_get_eui` (`loragw_hal.c`): given the
three 32-bit words of the 96-bit MCU unique id (`unique_id_high`,
`unique_id_mid`, `unique_id_low`, obtained from the ping reply), fold
`ID1 + ID3` (uint32 wrap-around addition) into bytes 7..4 and `ID2`
into bytes 3..0, then assemble the eight bytes by shift-and-or. -/
def lgw_get_eui_value (ID1 ID2 ID3 : Nat) : Nat :=
  let s := (ID1 + ID3) % 2 ^ 32
  let id7 := s / 2 ^ 24 % 256
  let id6 := s / 2 ^ 16 % 256
  let id5 := s / 2 ^ 8 % 256
  let id4 := s % 256
  let id3 := ID2 / 2 ^ 24 % 256
  let id2 := ID2 / 2 ^ 16 % 256
  let id1 := ID2 / 2 ^ 8 % 256
  let id0 := ID2 % 256
  (((((((id7 <<< 56 ||| id6 <<< 48) ||| id5 <<< 40) ||| id4 <<< 32) |||
      id3 <<< 24) ||| id2 <<< 16) ||| id1 <<< 8) ||| id0)

/-- C7: `lgw_get_eui` is deterministic in the 96-bit unique id: the low
32 bits of the derived value equal the middle word and the high 32 bits
equal `(high + low) mod 2^32`. -/
theorem lgw_get_eui_fold (ID1 ID2 ID3 : Nat)
    (h1 : ID1 < 2 ^ 32) (h2 : ID2 < 2 ^ 32) (h3 : ID3 < 2 ^ 32) :
    lgw_get_eui_value ID1 ID2 ID3 % 2 ^ 32 = ID2 ∧
    lgw_get_eui_value ID1 ID2 ID3 / 2 ^ 32 = (ID1 + ID3) % 2 ^ 32 := by
  unfold lgw_get_eui_value
  have hs : (ID1 + ID3) % 2 ^ 32 < 2 ^ 32 := Nat.mod_lt _ (by norm_num)
  rw [byte_assemble _ _ _ _ _ _ _ _
    (Nat.mod_lt _ (by norm_num)) (Nat.mod_lt _ (by norm_num))
    (Nat.mod_lt _ (by norm_num)) (Nat.mod_lt _ (by norm_num))
    (Nat.mod_lt _ (by norm_num)) (Nat.mod_lt _ (by norm_num))
    (Nat.mod_lt _ (by norm_num)) (Nat.mod_lt _ (by norm_num))]
  constructor <;>
    · generalize hrs : (ID1 + ID3) % 2 ^ 32 = s at *
      norm_num
      omega

/-- Witness for C7 at the spec's concrete vector: high word
`0x11111111`, middle `0x22222222`, low `0x33333333`; the low 32 bits of
the derived EUI equal the middle word, the high 32 bits equal
`0x44444444`. -/
theorem lgw_get_eui_fold_witness :
    (0x11111111 : Nat) < 2 ^ 32 ∧ (0x22222222 : Nat) < 2 ^ 32 ∧
    (0x33333333 : Nat) < 2 ^ 32 ∧
    (lgw_get_eui_value 0x11111111 0x22222222 0x33333333 % 2 ^ 32 = 0x22222222 ∧
     lgw_get_eui_value 0x11111111 0x22222222 0x33333333 / 2 ^ 32
       = (0x11111111 + 0x33333333) % 2 ^ 32) :=
  ⟨by norm_num, by norm_num, by norm_num,
   lgw_get_eui_fold 0x11111111 0x22222222 0x33333333
     (by norm_num) (by norm_num) (by norm_num)⟩

/-! ## `mcu_reset` (`loragw_mcu.c`) and `lgw_abort_tx` (`loragw_hal.c`) -/

/-- The reset types of the RESET command (`e_reset_type`,
`RESET_TYPE__RX_ALL` / `RESET_TYPE__TX` / `RESET_TYPE__GTW`). -/
inductive e_reset_type where
  | rx_all : e_reset_type
  | tx : e_reset_type
  | gtw : e_reset_type
deriving DecidableEq

/-- Model of `mcu_reset` (`loragw_mcu.c`): unconditionally issue a RESET command
for all RX radios, then one for the TX radio, then — only if the
`reset_mcu` parameter is true — one for the MCU itself, finally wait
500 ms. `ackOk t` collapses the write/read/decode/status outcome of the
RESET exchange for type `t` (false on any of the four failure paths).
Result: the C return value and the list of reset commands issued, in
order. Note the C definition takes `bool reset_mcu` even though the
HAL callers pass `e_reset_type` enum constants, which C silently
converts to bool. -/
def mcu_reset (reset_mcu : Bool) (ackOk : e_reset_type → Bool) :
    Int × List e_reset_type :=
  if ackOk .rx_all = false then (-1, [.rx_all])
  else if ackOk .tx = false then (-1, [.rx_all, .tx])
  else if reset_mcu = true then
    if ackOk .gtw = false then (-1, [.rx_all, .tx, .gtw])
    else (0, [.rx_all, .tx, .gtw])
  else (0, [.rx_all, .tx])

/-- Model of `lgw_abort_tx` (`loragw_hal.c`): calls
`mcu_reset(mcu_fd, RESET_TYPE__TX)` and maps failure to `-1`. The C
prototype of `mcu_reset` takes a `bool`, so `RESET_TYPE__TX` is
converted to a boolean; its numeric value lives in the missing
`loragw_mcu.h`, so the converted boolean is kept as a parameter and the
theorem below holds for both values. -/
def lgw_abort_tx (reset_type_tx_as_bool : Bool)
    (ackOk : e_reset_type → Bool) : Int × List e_reset_type :=
  mcu_reset reset_type_tx_as_bool ackOk

/-- C10: every successful `mcu_reset` call issues the reset command for
all RX radios and the one for the TX radio, regardless of its
argument (the argument only adds an MCU reset); consequently a
successful `lgw_abort_tx` — whichever boolean `RESET_TYPE__TX` converts
to — resets the RX radios in addition to the TX radio. -/
theorem mcu_reset_always_resets_rx_and_tx (arg abortArg : Bool)
    (ackOk : e_reset_type → Bool)
    (hok : (mcu_reset arg ackOk).1 = 0)
    (habort : (lgw_abort_tx abortArg ackOk).1 = 0) :
    (mcu_reset arg ackOk).2
      = [.rx_all, .tx] ++ (if arg then [.gtw] else []) ∧
    .rx_all ∈ (lgw_abort_tx abortArg ackOk).2 ∧
    .tx ∈ (lgw_abort_tx abortArg ackOk).2 := by
  unfold lgw_abort_tx at habort ⊢
  unfold mcu_reset at hok habort ⊢
  split_ifs at hok habort ⊢ <;> simp_all

/-- Witness for C10: all acknowledgments succeed, `mcu_reset` called
with `false`, `lgw_abort_tx` with `true`. -/
theorem mcu_reset_always_resets_rx_and_tx_witness :
    (mcu_reset false (fun _ => true)).1 = 0 ∧
    (lgw_abort_tx true (fun _ => true)).1 = 0 ∧
    ((mcu_reset false (fun _ => true)).2
       = [.rx_all, .tx] ++ (if false then [.gtw] else []) ∧
     .rx_all ∈ (lgw_abort_tx true (fun _ => true)).2 ∧
     .tx ∈ (lgw_abort_tx true (fun _ => true)).2) :=
  ⟨rfl, rfl, mcu_reset_always_resets_rx_and_tx false true (fun _ => true) rfl rfl⟩

/-! ## `lgw_time_on_air` (`loragw_hal.c`)

The C computation is in `double`; it is modelled in exact rational
arithmetic (`ℚ`), with `ceil` as `Int.ceil`. -/

/-- A packet to send (`struct lgw_pkt_tx_s`, `loragw_hal.h`). Enums are
kept as their raw numeric values. -/
structure lgw_pkt_tx_s where
  freq_hz : Nat
  tx_mode : Nat
  count_us : Nat
  rf_power : Int
  bandwidth : Nat
  datarate : Nat
  coderate : Nat
  invert_pol : Bool
  preamble : Nat
  no_crc : Bool
  no_header : Bool
  size : Nat
  payload : List Nat
deriving DecidableEq

/-- The bandwidth switch of `lgw_time_on_air`: map the `e_bandwidth`
enum value (`BW_200KHZ = 8`, `BW_400KHZ = 10`, `BW_800KHZ = 12`,
`BW_1600KHZ = 13`) to the approximate occupied bandwidth in kHz;
`none` is the `default:` error branch. -/
def bw_approx_khz : Nat → Option Nat
  | 8 => some 203
  | 10 => some 406
  | 12 => some 812
  | 13 => some 1625
  | _ => none

/-- The `symbols_nb_data` computation of `lgw_time_on_air`
(`loragw_hal.c` lines 530-564): FEC rate, total byte count (payload
plus 2 CRC bytes when CRC is enabled), bits per symbol (reduced by 2
when SF ≥ 11), header symbol budget, and the three-way branch on
long-interleaving (`coderate > 4`) and header presence. -/
def toa_symbols_nb_data (sf cr : Nat) (no_header no_crc : Bool) (size : Nat) : ℚ :=
  let fec_rate : ℚ :=
    if 4 < cr then 4 / ((cr : ℚ) + (if cr = 7 then 1 else 0))
    else 4 / (4 + (cr : ℚ))
  let total_bytes_nb : ℚ := (size : ℚ) + 2 * (if no_crc then 0 else 1)
  let tx_bits_symbol : ℚ := (sf : ℚ) - 2 * (if 11 ≤ sf then 1 else 0)
  let Nsymbol_header : ℚ := if no_header then 0 else 20
  let tx_infobits_header : ℚ :=
    (sf : ℚ) * 4 + (if sf ≤ 6 then 1 else 0) * 8 - 8 - Nsymbol_header
  if ¬ 4 < cr then
    let tx_infobits_payload : ℚ :=
      max 0 (8 * total_bytes_nb - tx_infobits_header)
    8 + (⌈tx_infobits_payload / 4 / tx_bits_symbol⌉ : ℚ) * ((cr : ℚ) + 4)
  else if no_header = false then
    let tih : ℚ :=
      if tx_infobits_header < 8 * total_bytes_nb then
        min tx_infobits_header (8 * (size : ℚ))
      else tx_infobits_header
    let tx_infobits_payload : ℚ := max 0 (8 * total_bytes_nb - tih)
    8 + (⌈tx_infobits_payload / fec_rate / tx_bits_symbol⌉ : ℚ)
  else
    let tx_bits_symbol_start : ℚ :=
      (sf : ℚ) - 2 + 2 * (if sf ≤ 6 then 1 else 0)
    let symbols_nb_start : ℚ :=
      (⌈8 * total_bytes_nb / fec_rate / tx_bits_symbol_start⌉ : ℚ)
    if symbols_nb_start < 8 then symbols_nb_start
    else
      let tx_codedbits_header : ℚ := tx_bits_symbol_start * 8
      let tx_codedbits_payload : ℚ :=
        8 * total_bytes_nb / fec_rate - tx_codedbits_header
      8 + (⌈tx_codedbits_payload / tx_bits_symbol⌉ : ℚ)

/-- Model of `lgw_time_on_air` (`loragw_hal.c`): invalid bandwidth returns 0
with no exact result; otherwise symbol period `2^SF / bw_kHz` (in ms),
data symbol count as above, preamble symbol count
`preamble + 4.25 + 2×fine_sync`, total airtime, returned both ceiled to
an integer (the C `(uint32_t)(ceil(...))` return) and exact (the C
`*result` out-parameter). -/
def lgw_time_on_air (pkt : lgw_pkt_tx_s) : Nat × Option ℚ :=
  match bw_approx_khz pkt.bandwidth with
  | none => (0, none)
  | some bw =>
    let symbolPeriod : ℚ := (2 ^ pkt.datarate : ℚ) / (bw : ℚ)
    let symbols_nb_data : ℚ :=
      toa_symbols_nb_data pkt.datarate pkt.coderate pkt.no_header pkt.no_crc
        pkt.size
    let symbols_nb_preamble : ℚ :=
      (pkt.preamble : ℚ) + 4.25 + 2 * (if pkt.datarate ≤ 6 then 1 else 0)
    let t : ℚ := (symbols_nb_preamble + symbols_nb_data) * symbolPeriod
    (⌈t⌉.toNat, some t)

/-- Monotonicity of the non-long-interleaving data-symbol branch in the
payload term: the branch value is non-decreasing when the payload
quantity grows, for positive bits-per-symbol and nonnegative
coderate factor. -/
theorem toa_branchA (H T k c q1 q2 : ℚ) (hT : 0 < T) (hk : 0 ≤ k)
    (hq : q1 ≤ q2) :
    8 + (⌈max 0 (8 * (q1 + c) - H) / 4 / T⌉ : ℚ) * k
      ≤ 8 + (⌈max 0 (8 * (q2 + c) - H) / 4 / T⌉ : ℚ) * k := by
  have hnum : max 0 (8 * (q1 + c) - H) ≤ max 0 (8 * (q2 + c) - H) :=
    max_le_max le_rfl (by linarith)
  have hdiv : max 0 (8 * (q1 + c) - H) / 4 / T
      ≤ max 0 (8 * (q2 + c) - H) / 4 / T :=
    (div_le_div_iff_of_pos_right hT).mpr
      ((div_le_div_iff_of_pos_right (by norm_num : (0:ℚ) < 4)).mpr hnum)
  have hceil : (⌈max 0 (8 * (q1 + c) - H) / 4 / T⌉ : ℚ)
      ≤ (⌈max 0 (8 * (q2 + c) - H) / 4 / T⌉ : ℚ) := by
    exact_mod_cast Int.ceil_le_ceil hdiv
  have := mul_le_mul_of_nonneg_right hceil hk
  linarith

/-- Monotonicity of the long-interleaving explicit-header data-symbol
branch, including the header-information-bit clamping that depends on
the payload size itself. -/
theorem toa_branchB (H F T c q1 q2 : ℚ) (hF : 0 < F) (hT : 0 < T)
    (hc : 0 ≤ c) (hq : q1 ≤ q2) :
    8 + (⌈max 0 (8 * (q1 + c) -
        (if H < 8 * (q1 + c) then min H (8 * q1) else H)) / F / T⌉ : ℚ)
      ≤ 8 + (⌈max 0 (8 * (q2 + c) -
        (if H < 8 * (q2 + c) then min H (8 * q2) else H)) / F / T⌉ : ℚ) := by
  have hnum : max 0 (8 * (q1 + c) -
        (if H < 8 * (q1 + c) then min H (8 * q1) else H))
      ≤ max 0 (8 * (q2 + c) -
        (if H < 8 * (q2 + c) then min H (8 * q2) else H)) := by
    split_ifs with h1 h2 h2
    · apply max_le_max le_rfl
      rcases le_total H (8 * q1) with hm | hm
      · rw [min_eq_left hm, min_eq_left (by linarith)]
        linarith
      · rw [min_eq_right hm]
        have := min_le_right H (8 * q2)
        have := min_le_left H (8 * q2)
        linarith
    · exact absurd (lt_of_lt_of_le h1 (by linarith)) h2
    · rw [max_eq_left (by linarith)]
      exact le_max_left _ _
    · apply max_le_max le_rfl
      linarith
  have hdiv : max 0 (8 * (q1 + c) -
        (if H < 8 * (q1 + c) then min H (8 * q1) else H)) / F / T
      ≤ max 0 (8 * (q2 + c) -
        (if H < 8 * (q2 + c) then min H (8 * q2) else H)) / F / T :=
    (div_le_div_iff_of_pos_right hT).mpr
      ((div_le_div_iff_of_pos_right hF).mpr hnum)
  have hceil := Int.ceil_le_ceil hdiv
  have : ((⌈max 0 (8 * (q1 + c) -
      (if H < 8 * (q1 + c) then min H (8 * q1) else H)) / F / T⌉ : ℤ) : ℚ)
      ≤ ((⌈max 0 (8 * (q2 + c) -
      (if H < 8 * (q2 + c) then min H (8 * q2) else H)) / F / T⌉ : ℤ) : ℚ) := by
    exact_mod_cast hceil
  linarith

/-- Monotonicity of the long-interleaving implicit-header data-symbol
branch, across the `symbols_nb_start < 8` branch boundary. The
hypothesis `t1 ≤ 2 * t2` is what makes the two formulas compatible at
the boundary; it holds for every spreading factor 5..12. -/
theorem toa_branchC (F t1 t2 c q1 q2 : ℚ) (hF : 0 < F) (ht1 : 0 < t1)
    (ht2 : 0 < t2) (ht12 : t1 ≤ 2 * t2) (hc : 0 ≤ c) (hq : q1 ≤ q2) :
    (if (⌈8 * (q1 + c) / F / t1⌉ : ℚ) < 8 then (⌈8 * (q1 + c) / F / t1⌉ : ℚ)
     else 8 + (⌈(8 * (q1 + c) / F - t1 * 8) / t2⌉ : ℚ))
      ≤ (if (⌈8 * (q2 + c) / F / t1⌉ : ℚ) < 8 then (⌈8 * (q2 + c) / F / t1⌉ : ℚ)
         else 8 + (⌈(8 * (q2 + c) / F - t1 * 8) / t2⌉ : ℚ)) := by
  have hX : 8 * (q1 + c) / F ≤ 8 * (q2 + c) / F :=
    (div_le_div_iff_of_pos_right hF).mpr (by linarith)
  have hceil1 : (⌈8 * (q1 + c) / F / t1⌉ : ℚ)
      ≤ (⌈8 * (q2 + c) / F / t1⌉ : ℚ) := by
    exact_mod_cast Int.ceil_le_ceil ((div_le_div_iff_of_pos_right ht1).mpr hX)
  split_ifs with hx hy hy
  · exact hceil1
  · have h7 : (⌈8 * (q1 + c) / F / t1⌉ : ℚ) ≤ 7 := by
      have hlt : ⌈8 * (q1 + c) / F / t1⌉ < 8 := by exact_mod_cast hx
      have : ⌈8 * (q1 + c) / F / t1⌉ ≤ 7 := by omega
      exact_mod_cast this
    have hY8 : (8 : ℚ) ≤ (⌈8 * (q2 + c) / F / t1⌉ : ℚ) := le_of_not_lt hy
    have hYgt : (7 : ℚ) < 8 * (q2 + c) / F / t1 := by
      by_contra hle
      push_neg at hle
      have h8 : ⌈8 * (q2 + c) / F / t1⌉ ≤ 7 :=
        Int.ceil_le.mpr (by exact_mod_cast hle)
      have : (⌈8 * (q2 + c) / F / t1⌉ : ℚ) ≤ 7 := by exact_mod_cast h8
      linarith
    have hY7 : 7 * t1 < 8 * (q2 + c) / F := (lt_div_iff₀ ht1).mp hYgt
    have hneg2 : (-2 : ℚ) < (8 * (q2 + c) / F - t1 * 8) / t2 := by
      rw [lt_div_iff₀ ht2]
      nlinarith
    have hc2 : (-2 : ℤ) < ⌈(8 * (q2 + c) / F - t1 * 8) / t2⌉ :=
      Int.lt_ceil.mpr (by exact_mod_cast hneg2)
    have hc2' : (-1 : ℚ) ≤ (⌈(8 * (q2 + c) / F - t1 * 8) / t2⌉ : ℚ) := by
      have : (-1 : ℤ) ≤ ⌈(8 * (q2 + c) / F - t1 * 8) / t2⌉ := by omega
      exact_mod_cast this
    linarith
  · exact absurd (lt_of_le_of_lt hceil1 hy) hx
  · have hd : (8 * (q1 + c) / F - t1 * 8) / t2
        ≤ (8 * (q2 + c) / F - t1 * 8) / t2 :=
      (div_le_div_iff_of_pos_right ht2).mpr (by linarith)
    have := Int.ceil_le_ceil hd
    have hcast : (⌈(8 * (q1 + c) / F - t1 * 8) / t2⌉ : ℚ)
        ≤ (⌈(8 * (q2 + c) / F - t1 * 8) / t2⌉ : ℚ) := by exact_mod_cast this
    linarith

set_option maxHeartbeats 2000000 in
/-- The data-symbol count of `lgw_time_on_air` is non-decreasing in the
payload size, for any spreading factor in the `e_spreading_factor`
range 5..12 and any coderate, header mode and CRC setting. -/
theorem toa_symbols_nb_data_mono (sf cr : Nat) (nh nc : Bool) (s1 s2 : Nat)
    (h5 : 5 ≤ sf) (h12 : sf ≤ 12) (hs : s1 ≤ s2) :
    toa_symbols_nb_data sf cr nh nc s1 ≤ toa_symbols_nb_data sf cr nh nc s2 := by
  have hsQ : ((s1 : ℚ)) ≤ (s2 : ℚ) := by exact_mod_cast hs
  have hsf5 : (5 : ℚ) ≤ (sf : ℚ) := by exact_mod_cast h5
  have hsf12 : ((sf : ℚ)) ≤ 12 := by exact_mod_cast h12
  have hT : 0 < (sf : ℚ) - 2 * (if 11 ≤ sf then 1 else 0) := by
    split_ifs with h
    · have : (11 : ℚ) ≤ (sf : ℚ) := by exact_mod_cast h
      linarith
    · linarith
  have hcpos : (0 : ℚ) ≤ 2 * (if nc then 0 else 1) := by
    split_ifs <;> norm_num
  simp only [toa_symbols_nb_data]
  by_cases hLI : 4 < cr
  · simp only [if_neg (not_not_intro hLI), if_pos hLI]
    have hcrQ : (5 : ℚ) ≤ (cr : ℚ) := by exact_mod_cast hLI
    have hF : 0 < 4 / ((cr : ℚ) + (if cr = 7 then 1 else 0)) := by
      apply div_pos (by norm_num)
      split_ifs <;> linarith
    by_cases hnh : nh = false
    · simp only [if_pos hnh]
      exact toa_branchB _ _ _ _ _ _ hF hT hcpos hsQ
    · simp only [if_neg hnh]
      have ht1 : 0 < (sf : ℚ) - 2 + 2 * (if sf ≤ 6 then 1 else 0) := by
        split_ifs <;> linarith
      have ht12 : (sf : ℚ) - 2 + 2 * (if sf ≤ 6 then 1 else 0)
          ≤ 2 * ((sf : ℚ) - 2 * (if 11 ≤ sf then 1 else 0)) := by
        split_ifs with ha hb hb
        · exact absurd h12 (by omega)
        · linarith
        · have : (11 : ℚ) ≤ (sf : ℚ) := by exact_mod_cast hb
          linarith
        · linarith
      exact toa_branchC _ _ _ _ _ _ hF ht1 hT ht12 hcpos hsQ
  · simp only [if_pos (show ¬ 4 < cr from hLI)]
    have : (0 : ℚ) ≤ (cr : ℚ) + 4 := by positivity
    exact toa_branchA _ _ _ _ _ _ hT this hsQ

/-- The bandwidth mapping only ever produces positive kHz values. -/
theorem bw_approx_khz_pos (b n : Nat) (h : bw_approx_khz b = some n) : 0 < n := by
  unfold bw_approx_khz at h
  split at h <;> simp_all <;> omega

/-- C6: for fixed bandwidth (valid), spreading factor (in the enum
range 5..12), coding rate, preamble length, header mode and CRC
setting, the time-on-air computed by `lgw_time_on_air` is monotonically
non-decreasing in the payload size over 0..255 — both the integer
millisecond return value and the exact result. -/
theorem lgw_time_on_air_mono_size (p : lgw_pkt_tx_s) (s1 s2 bw : Nat)
    (hbw : bw_approx_khz p.bandwidth = some bw)
    (h5 : 5 ≤ p.datarate) (h12 : p.datarate ≤ 12)
    (hs : s1 ≤ s2) (h255 : s2 ≤ 255) :
    (lgw_time_on_air { p with size := s1 }).1
      ≤ (lgw_time_on_air { p with size := s2 }).1 ∧
    (∀ q1 q2 : ℚ, (lgw_time_on_air { p with size := s1 }).2 = some q1 →
      (lgw_time_on_air { p with size := s2 }).2 = some q2 → q1 ≤ q2) := by
  have hbwpos : (0 : ℚ) < (bw : ℚ) := by
    exact_mod_cast bw_approx_khz_pos _ _ hbw
  have hdata := toa_symbols_nb_data_mono p.datarate p.coderate p.no_header
    p.no_crc s1 s2 h5 h12 hs
  have hsp : (0 : ℚ) ≤ (2 ^ p.datarate : ℚ) / (bw : ℚ) := by positivity
  have ht : ((p.preamble : ℚ) + 4.25 + 2 * (if p.datarate ≤ 6 then 1 else 0) +
        toa_symbols_nb_data p.datarate p.coderate p.no_header p.no_crc s1) *
        ((2 ^ p.datarate : ℚ) / (bw : ℚ))
      ≤ ((p.preamble : ℚ) + 4.25 + 2 * (if p.datarate ≤ 6 then 1 else 0) +
        toa_symbols_nb_data p.datarate p.coderate p.no_header p.no_crc s2) *
        ((2 ^ p.datarate : ℚ) / (bw : ℚ)) := by
    apply mul_le_mul_of_nonneg_right _ hsp
    linarith
  unfold lgw_time_on_air
  simp only
  rw [hbw]
  simp only
  constructor
  · have := Int.ceil_le_ceil ht
    omega
  · intro q1 q2 hq1 hq2
    simp only [Option.some.injEq] at hq1 hq2
    rw [← hq1, ← hq2]
    exact ht

/-- A packet for the C6 witness: BW 1600 kHz class, SF12, coderate
`CR_LORA_LI_4_7`, explicit header, CRC on, preamble 8. -/
def pktC6 : lgw_pkt_tx_s :=
  { freq_hz := 2425000000, tx_mode := 0, count_us := 0, rf_power := 10
    bandwidth := 13, datarate := 12, coderate := 7, invert_pol := false
    preamble := 8, no_crc := false, no_header := false, size := 0
    payload := [] }

/-- Witness for C6 at the concrete packet with payload sizes 5 and 10. -/
theorem lgw_time_on_air_mono_size_witness :
    bw_approx_khz pktC6.bandwidth = some 1625 ∧
    5 ≤ pktC6.datarate ∧ pktC6.datarate ≤ 12 ∧ (5 : Nat) ≤ 10 ∧ (10 : Nat) ≤ 255 ∧
    ((lgw_time_on_air { pktC6 with size := 5 }).1
       ≤ (lgw_time_on_air { pktC6 with size := 10 }).1 ∧
     (∀ q1 q2 : ℚ, (lgw_time_on_air { pktC6 with size := 5 }).2 = some q1 →
       (lgw_time_on_air { pktC6 with size := 10 }).2 = some q2 → q1 ≤ q2)) :=
  ⟨rfl, by norm_num [pktC6], by norm_num [pktC6], by norm_num, by norm_num,
   lgw_time_on_air_mono_size pktC6 5 10 1625 rfl
     (by norm_num [pktC6]) (by norm_num [pktC6]) (by norm_num) (by norm_num)⟩
